import Mathlib

/-!
# Verification of the provider-side session core

Shallow embedding of the session manager and the hermes promise handler
of the node repository (package `service` and package `pingpong`), with
the claims of the design specification settled as theorems.

Go byte strings are modelled as `List Byte` with `Byte := Fin 256`;
machine integers and `big.Int` values as `Int`; fallible calls as
`Except Err` or `Option Err`; the external collaborators (encryption,
storage, hermes HTTP caller, payment engine) as oracle function fields
threaded through an environment record; goroutine spawns and observable
calls as explicit event traces.
-/

/-- Bytes are naturals below 256. -/
abbrev Byte := Fin 256

/-! ## Hex encoding (model of `encoding/hex`) -/

/-- Lowercase hex digit character for a value below 16
(model of the `hextable` used by `hex.EncodeToString`). -/
def hexDigitChar (n : Nat) : Char :=
  if n < 10 then Char.ofNat (48 + n) else Char.ofNat (97 + (n - 10))

/-- Hex encoding of a byte string to characters, two lowercase digits per
byte, high nibble first (model of `hex.EncodeToString`). -/
def hexEncodeList (bs : List Byte) : List Char :=
  bs.flatMap fun b => [hexDigitChar (b.val / 16), hexDigitChar (b.val % 16)]

/-- Model of `hex.EncodeToString`. -/
def hexEncodeString (bs : List Byte) : String :=
  String.mk (hexEncodeList bs)

/-- Value of a hex digit character, accepting the lowercase and uppercase
alphabets as `hex.DecodeString` does. -/
def hexDigitVal (c : Char) : Option (Fin 16) :=
  if h : 48 ≤ c.toNat ∧ c.toNat ≤ 57 then some ⟨c.toNat - 48, by omega⟩
  else if h2 : 97 ≤ c.toNat ∧ c.toNat ≤ 102 then some ⟨c.toNat - 87, by omega⟩
  else if h3 : 65 ≤ c.toNat ∧ c.toNat ≤ 70 then some ⟨c.toNat - 55, by omega⟩
  else none

/-- Hex decoding of a character list: pairs of hex digits to bytes, failing
on an odd length or a non-digit (model of `hex.DecodeString`). -/
def hexDecodeList : List Char → Option (List Byte)
  | [] => some []
  | [_] => none
  | c1 :: c2 :: rest =>
    match hexDigitVal c1, hexDigitVal c2, hexDecodeList rest with
    | some h, some l, some bs => some (⟨h.val * 16 + l.val, by omega⟩ :: bs)
    | _, _, _ => none

/-- Model of `hex.DecodeString`. -/
def hexDecodeString (s : String) : Option (List Byte) :=
  hexDecodeList s.data

theorem hexDigitVal_hexDigitChar (m : Fin 16) :
    hexDigitVal (hexDigitChar m.val) = some m := by
  revert m
  decide

/-- Decoding inverts encoding on every byte string. -/
theorem hexDecodeList_hexEncodeList (bs : List Byte) :
    hexDecodeList (hexEncodeList bs) = some bs := by
  induction bs with
  | nil => rfl
  | cons b rest ih =>
    have hhi : b.val / 16 < 16 := by omega
    have hlo : b.val % 16 < 16 := by omega
    have e1 := hexDigitVal_hexDigitChar ⟨b.val / 16, hhi⟩
    have e2 := hexDigitVal_hexDigitChar ⟨b.val % 16, hlo⟩
    have hshape : hexEncodeList (b :: rest) =
        hexDigitChar (b.val / 16) :: hexDigitChar (b.val % 16) :: hexEncodeList rest := by
      simp [hexEncodeList]
    rw [hshape, hexDecodeList, e1, e2, ih]
    have : b.val / 16 * 16 + b.val % 16 = b.val := by omega
    simp [Fin.ext_iff, this]

theorem hexDecodeString_hexEncodeString (bs : List Byte) :
    hexDecodeString (hexEncodeString bs) = some bs := by
  simpa [hexDecodeString, hexEncodeString] using hexDecodeList_hexEncodeList bs

/-- Characters produced by the hex encoder are ASCII and differ from the
JSON double quote (code 34). -/
theorem hexDigitChar_ascii (m : Fin 16) :
    (hexDigitChar m.val).toNat < 256 ∧ (hexDigitChar m.val).toNat ≠ 34 := by
  revert m
  decide

theorem hexEncodeList_ascii {c : Char} {bs : List Byte} (hc : c ∈ hexEncodeList bs) :
    c.toNat < 256 ∧ c.toNat ≠ 34 := by
  induction bs with
  | nil => simp [hexEncodeList] at hc
  | cons b rest ih =>
    have hshape : hexEncodeList (b :: rest) =
        hexDigitChar (b.val / 16) :: hexDigitChar (b.val % 16) :: hexEncodeList rest := by
      simp [hexEncodeList]
    rw [hshape] at hc
    simp only [List.mem_cons] at hc
    rcases hc with h1 | h1 | h2
    · rw [h1]; exact hexDigitChar_ascii ⟨b.val / 16, by omega⟩
    · rw [h1]; exact hexDigitChar_ascii ⟨b.val % 16, by omega⟩
    · exact ih h2

/-! ## ASCII bytes and decimal rendering (model of the `encoding/json`
fragment the recovery payload uses) -/

/-- Byte of a character, the ASCII fragment of Go's UTF-8 string bytes
(every payload in this development is ASCII). -/
def charByte (c : Char) : Byte :=
  ⟨c.toNat % 256, Nat.mod_lt _ (by norm_num)⟩

/-- Character of a byte. -/
def byteChar (b : Byte) : Char := Char.ofNat b.val

/-- UTF-8 bytes of a string, restricted to the ASCII fragment. -/
def strBytes (s : String) : List Byte := s.data.map charByte

/-- String of a byte list, restricted to the ASCII fragment. -/
def bytesToString (bs : List Byte) : String := String.mk (bs.map byteChar)

theorem charOfNat_toNat (c : Char) : Char.ofNat c.toNat = c := by
  have hvalid : Nat.isValidChar c.toNat := c.valid
  unfold Char.ofNat
  rw [dif_pos hvalid]
  rfl

theorem byteChar_charByte {c : Char} (h : c.toNat < 256) :
    byteChar (charByte c) = c := by
  have hv : c.toNat % 256 = c.toNat := Nat.mod_eq_of_lt h
  simp only [byteChar, charByte, hv]
  exact charOfNat_toNat c

/-- Base-10 digits of a natural number, most significant first. -/
def natDigits (n : Nat) : List Nat :=
  if _h : n < 10 then [n]
  else natDigits (n / 10) ++ [n % 10]
termination_by n
decreasing_by exact Nat.div_lt_self (by omega) (by omega)

/-- Byte of a decimal digit. -/
def digitByte (d : Nat) : Byte := ⟨(48 + d) % 256, Nat.mod_lt _ (by norm_num)⟩

/-- Decimal rendering of a natural number as ASCII bytes. -/
def natBytes (n : Nat) : List Byte := (natDigits n).map digitByte

/-- Decimal rendering of an integer as ASCII bytes, with a leading minus
sign when negative (model of `encoding/json` number output for `big.Int`). -/
def intBytes (n : Int) : List Byte :=
  if n < 0 then charByte '-' :: natBytes n.natAbs else natBytes n.toNat

theorem natDigits_lt (n : Nat) : ∀ d ∈ natDigits n, d < 10 := by
  induction n using Nat.strong_induction_on with
  | _ n ih =>
    intro d hd
    rw [natDigits] at hd
    by_cases h : n < 10
    · rw [dif_pos h] at hd
      simp only [List.mem_singleton] at hd
      omega
    · rw [dif_neg h] at hd
      rcases List.mem_append.mp hd with h1 | h2
      · exact ih (n / 10) (Nat.div_lt_self (by omega) (by omega)) d h1
      · simp only [List.mem_singleton] at h2
        omega

theorem natDigits_ne_nil (n : Nat) : natDigits n ≠ [] := by
  rw [natDigits]
  by_cases h : n < 10
  · rw [dif_pos h]; simp
  · rw [dif_neg h]; simp

/-- Folding the digits back at base 10 recovers the number, for any
accumulator. -/
theorem natDigits_foldl (n : Nat) : ∀ acc : Nat,
    (natDigits n).foldl (fun a d => a * 10 + d) acc =
      acc * 10 ^ (natDigits n).length + n := by
  induction n using Nat.strong_induction_on with
  | _ n ih =>
    intro acc
    rw [natDigits]
    by_cases h : n < 10
    · rw [dif_pos h]
      simp
    · rw [dif_neg h]
      rw [List.foldl_append]
      rw [ih (n / 10) (Nat.div_lt_self (by omega) (by omega)) acc]
      simp only [List.foldl_cons, List.foldl_nil, List.length_append,
        List.length_singleton]
      rw [pow_succ]
      have h2 : (acc * 10 ^ (natDigits (n / 10)).length + n / 10) * 10 + n % 10 =
          acc * (10 ^ (natDigits (n / 10)).length * 10) + (n / 10 * 10 + n % 10) := by
        ring
      rw [h2]
      omega

/-! ## JSON codec for the recovery payload

The type `rRecoveryDetails` is declared elsewhere in the repository;
modelled from the spec: a structure with the two fields `R` (string)
and `AgreementID` (big integer), serialized as the canonical JSON
object with exactly those two fields. The marshal/unmarshal pair below
models `encoding/json` restricted to this type. -/

/-- Recovery payload: the hex of the payment secret and the agreement id. -/
structure RRecoveryDetails where
  R : String
  agreementID : Int
deriving DecidableEq, Repr

/-- Model of `json.Marshal` on `rRecoveryDetails`. -/
def jsonMarshalRRecovery (d : RRecoveryDetails) : List Byte :=
  strBytes "\x7b\"R\":\"" ++ strBytes d.R ++ strBytes "\",\"AgreementID\":" ++
    intBytes d.agreementID ++ strBytes "\x7d"

/-- Consume an expected byte prefix, returning the remainder. -/
def dropPrefixBytes : List Byte → List Byte → Option (List Byte)
  | [], rest => some rest
  | _ :: _, [] => none
  | p :: ps, b :: bs => if p = b then dropPrefixBytes ps bs else none

/-- Byte in the ASCII decimal digit range. -/
def isDigitByte (b : Byte) : Bool := decide (48 ≤ b.val ∧ b.val ≤ 57)

/-- Value of a run of decimal digit bytes. -/
def parseNatBytes (bs : List Byte) : Nat :=
  bs.foldl (fun a b => a * 10 + (b.val - 48)) 0

/-- Parse a nonempty digit run immediately followed by the closing brace. -/
def parseNatThenBrace (bs : List Byte) : Option Nat :=
  let ds := bs.takeWhile isDigitByte
  if ds.isEmpty then none
  else
    match bs.drop ds.length with
    | [b] => if b = charByte '}' then some (parseNatBytes ds) else none
    | _ => none

/-- Parse an optionally-signed integer immediately followed by the
closing brace. -/
def parseSignedIntThenBrace (bs : List Byte) : Option Int :=
  if bs.head? = some (charByte '-') then
    (parseNatThenBrace bs.tail).map fun m => -(Int.ofNat m)
  else
    (parseNatThenBrace bs).map Int.ofNat

/-- Model of `json.Unmarshal` into `rRecoveryDetails`, the partial inverse
of `jsonMarshalRRecovery`. -/
def jsonUnmarshalRRecovery (bs : List Byte) : Option RRecoveryDetails :=
  (dropPrefixBytes (strBytes "\x7b\"R\":\"") bs).bind fun rest1 =>
    let rBytes := rest1.takeWhile fun b => decide (b ≠ charByte '"')
    (dropPrefixBytes (strBytes "\",\"AgreementID\":") (rest1.drop rBytes.length)).bind
      fun rest3 =>
        (parseSignedIntThenBrace rest3).map fun n =>
          { R := bytesToString rBytes, agreementID := n }

theorem dropPrefixBytes_append (p rest : List Byte) :
    dropPrefixBytes p (p ++ rest) = some rest := by
  induction p with
  | nil => rfl
  | cons b bs ih => simp [dropPrefixBytes, ih]

theorem takeWhile_append_all {p : Byte → Bool} {xs : List Byte} {y : Byte}
    {ys : List Byte} (hall : ∀ x ∈ xs, p x = true) (hy : p y = false) :
    (xs ++ y :: ys).takeWhile p = xs := by
  induction xs with
  | nil => simp [List.takeWhile_cons, hy]
  | cons a as ih =>
    have ha := hall a (by simp)
    simp only [List.cons_append, List.takeWhile_cons, ha, if_true]
    rw [ih fun x hx => hall x (by simp [hx])]

theorem parseNatBytes_natBytes (m : Nat) : parseNatBytes (natBytes m) = m := by
  unfold parseNatBytes natBytes
  rw [List.foldl_map]
  have hext : ∀ (a : Nat), ∀ d ∈ natDigits m,
      a * 10 + ((digitByte d).val - 48) = a * 10 + d := by
    intro a d hd
    have hlt := natDigits_lt m d hd
    simp only [digitByte]
    have : (48 + d) % 256 = 48 + d := Nat.mod_eq_of_lt (by omega)
    rw [this]
    omega
  rw [List.foldl_ext (fun x y => x * 10 + ((digitByte y).val - 48))
    (fun a d => a * 10 + d) 0 hext]
  rw [natDigits_foldl m 0]
  simp

theorem digitByte_isDigit {d : Nat} (h : d < 10) : isDigitByte (digitByte d) = true := by
  simp only [isDigitByte, digitByte]
  have : (48 + d) % 256 = 48 + d := Nat.mod_eq_of_lt (by omega)
  simp [this]
  omega

theorem parseNatThenBrace_natBytes (m : Nat) :
    parseNatThenBrace (natBytes m ++ [charByte '}']) = some m := by
  have hall : ∀ b ∈ natBytes m, isDigitByte b = true := by
    intro b hb
    rcases List.mem_map.mp hb with ⟨d, hd, rfl⟩
    exact digitByte_isDigit (natDigits_lt m d hd)
  have hbrace : isDigitByte (charByte '}') = false := by decide
  have htw : (natBytes m ++ [charByte '}']).takeWhile isDigitByte = natBytes m :=
    takeWhile_append_all hall hbrace
  have hne : (natBytes m).isEmpty = false := by
    rcases hne : natBytes m with _ | ⟨b, bs⟩
    · exact absurd (List.map_eq_nil_iff.mp hne) (natDigits_ne_nil m)
    · rfl
  unfold parseNatThenBrace
  simp only [htw, hne, Bool.false_eq_true, if_false, List.drop_left, if_true,
    parseNatBytes_natBytes]

theorem parseSignedIntThenBrace_intBytes (n : Int) :
    parseSignedIntThenBrace (intBytes n ++ [charByte '}']) = some n := by
  by_cases hneg : n < 0
  · have hshape : intBytes n ++ [charByte '}'] =
        charByte '-' :: (natBytes n.natAbs ++ [charByte '}']) := by
      simp [intBytes, if_pos hneg]
    rw [hshape]
    unfold parseSignedIntThenBrace
    rw [if_pos (by rw [List.head?_cons])]
    simp only [List.tail_cons, parseNatThenBrace_natBytes, Option.map_some',
      Option.some.injEq, Int.ofNat_eq_coe]
    omega
  · have hshape : intBytes n ++ [charByte '}'] =
        natBytes n.toNat ++ [charByte '}'] := by
      simp [intBytes, if_neg hneg]
    rw [hshape]
    rcases hd : natDigits n.toNat with _ | ⟨d0, ds⟩
    · exact absurd hd (natDigits_ne_nil n.toNat)
    · have hd0 : d0 < 10 := natDigits_lt n.toNat d0 (by rw [hd]; simp)
      have hshape2 : natBytes n.toNat ++ [charByte '}'] =
          digitByte d0 :: ((ds.map digitByte) ++ [charByte '}']) := by
        simp [natBytes, hd]
      have hnotminus : ¬ (digitByte d0 = charByte '-') := by
        intro hcon
        have hval := congrArg Fin.val hcon
        have h45 : (charByte '-').val = 45 := by decide
        simp only [digitByte, h45] at hval
        omega
      have hhead : (digitByte d0 :: ((ds.map digitByte) ++ [charByte '}'])).head? ≠
          some (charByte '-') := by
        rw [List.head?_cons]
        exact fun hcon => hnotminus (Option.some.inj hcon)
      rw [hshape2]
      unfold parseSignedIntThenBrace
      rw [if_neg hhead, ← hshape2, parseNatThenBrace_natBytes]
      simp only [Option.map_some', Option.some.injEq, Int.ofNat_eq_coe]
      omega

/-- Unmarshalling inverts marshalling whenever the `R` field consists of
ASCII characters other than the double quote (hex strings in particular). -/
theorem jsonUnmarshalRRecovery_marshal (d : RRecoveryDetails)
    (hR : ∀ c ∈ d.R.data, c.toNat < 256 ∧ c.toNat ≠ 34) :
    jsonUnmarshalRRecovery (jsonMarshalRRecovery d) = some d := by
  have hassoc : jsonMarshalRRecovery d = strBytes "\x7b\"R\":\"" ++
      (strBytes d.R ++ (strBytes "\",\"AgreementID\":" ++
        (intBytes d.agreementID ++ strBytes "\x7d"))) := by
    simp [jsonMarshalRRecovery]
  have hmid : strBytes "\",\"AgreementID\":" =
      charByte '"' :: strBytes ",\"AgreementID\":" := by decide
  have hall : ∀ b ∈ strBytes d.R, (decide (b ≠ charByte '"')) = true := by
    intro b hb
    rcases List.mem_map.mp hb with ⟨c, hc, rfl⟩
    rcases hR c hc with ⟨hlt, hne⟩
    simp only [decide_eq_true_eq]
    intro hcon
    have := congrArg Fin.val hcon
    simp only [charByte, Nat.mod_eq_of_lt hlt] at this
    exact hne (by simpa using this)
  have hquote : (decide ((charByte '"') ≠ charByte '"')) = false := by decide
  have hrest1 : strBytes d.R ++ (strBytes "\",\"AgreementID\":" ++
      (intBytes d.agreementID ++ strBytes "\x7d")) =
      strBytes d.R ++ charByte '"' :: (strBytes ",\"AgreementID\":" ++
        (intBytes d.agreementID ++ strBytes "\x7d")) := by
    rw [hmid]; simp
  have hmid2 : charByte '"' :: (strBytes ",\"AgreementID\":" ++
      (intBytes d.agreementID ++ strBytes "\x7d")) =
      strBytes "\",\"AgreementID\":" ++ (intBytes d.agreementID ++ strBytes "\x7d") := by
    rw [hmid]; simp
  have hbraceonly : strBytes "\x7d" = [charByte '}'] := by decide
  unfold jsonUnmarshalRRecovery
  rw [hassoc, dropPrefixBytes_append]
  simp only [Option.some_bind]
  rw [hrest1, takeWhile_append_all hall hquote, List.drop_left, hmid2,
    dropPrefixBytes_append]
  simp only [Option.some_bind]
  rw [hbraceonly, parseSignedIntThenBrace_intBytes]
  simp only [Option.map_some', Option.some.injEq]
  have hRrt : bytesToString (strBytes d.R) = d.R := by
    unfold bytesToString strBytes
    rw [List.map_map]
    have h1 : d.R.data.map (byteChar ∘ charByte) = d.R.data.map id :=
      List.map_congr_left fun c hc => byteChar_charByte (hR c hc).1
    rw [h1, List.map_id]
  rw [hRrt]

/-! ## Error model

Go errors as a small inductive: the sentinel errors the handler
distinguishes (`ErrNeedsRRecovery`, `ErrHermesNoPreviousPromise`,
`ErrAttemptToOverwrite`, declared elsewhere in the repository), the
structured hermes error response carrying the recovery payload
(modelled from the spec: a structured hermes error wraps a sentinel
cause and exposes a hex `Data()` payload), plain message errors
(`errors.New`) and `fmt.Errorf("...: %w", e)` wrapping. `errIs` models
`errors.Is` (unwraps the chain), `errAsHermesResponse` models
`errors.As` targeting `HermesErrorResponse`. -/

/-- Sentinel errors distinguished by typed matching. -/
inductive Sentinel where
  | needsRRecovery
  | hermesNoPreviousPromise
  | attemptToOverwrite
deriving DecidableEq, Repr

/-- Go error values as the handler observes them. -/
inductive Err where
  | sentinel (s : Sentinel)
  | hermesResponse (cause : Option Sentinel) (data : String) (message : String)
  | msg (m : String)
  | wrap (m : String) (e : Err)
deriving DecidableEq, Repr

/-- Structured hermes error response: the `errors.As` target, exposing the
`Data()` recovery payload. -/
structure HermesErrorResponse where
  cause : Option Sentinel
  data : String
  message : String
deriving DecidableEq, Repr

/-- Model of `errors.Is` against a sentinel: unwraps `%w` chains and the
structured response's cause. -/
def errIs : Err → Sentinel → Bool
  | .sentinel s', s => decide (s' = s)
  | .hermesResponse c _ _, s => decide (c = some s)
  | .msg _, _ => false
  | .wrap _ e, s => errIs e s

/-- Model of `errors.As` targeting `HermesErrorResponse`: unwraps `%w`
chains, returning the first structured response. -/
def errAsHermesResponse : Err → Option HermesErrorResponse
  | .hermesResponse c d m => some ⟨c, d, m⟩
  | .wrap _ e => errAsHermesResponse e
  | _ => none

/-- Sentinel value `ErrNeedsRRecovery`. -/
def ErrNeedsRRecovery : Err := .sentinel .needsRRecovery

/-- Sentinel value `ErrHermesNoPreviousPromise`. -/
def ErrHermesNoPreviousPromise : Err := .sentinel .hermesNoPreviousPromise

/-- Sentinel value `ErrAttemptToOverwrite`. -/
def ErrAttemptToOverwrite : Err := .sentinel .attemptToOverwrite

/-! ## Hermes promise handler: data model

Identity and address types; the external `crypto.ExchangeMessage`,
`crypto.Promise`, `RequestPromise` and `HermesPromise` records with the
fields this file uses; the oracle environment standing for the
handler's dependencies (`HermesPromiseHandlerDeps`, the package function
`crypto.GenerateProviderChannelID` and the configured chain id). -/

/-- Provider/consumer identity (`identity.Identity`): an address string. -/
structure Identity where
  address : String
deriving DecidableEq, Repr

/-- Ethereum address (`common.Address`), modelled by its hex rendering. -/
structure EthAddress where
  hex : String
deriving DecidableEq, Repr

/-- Model of `common.HexToAddress`. -/
def hexToAddress (s : String) : EthAddress := ⟨s⟩

/-- Model of `identity.Identity.ToCommonAddress`. -/
def idToCommonAddress (i : Identity) : EthAddress := ⟨i.address⟩

/-- Fields of `crypto.ExchangeMessage` used by the handler. -/
structure ExchangeMessage where
  hermesID : String
  agreementID : Int
  agreementTotal : Int
  chainID : Int
deriving DecidableEq, Repr

/-- Countersigned settlement promise (`crypto.Promise`); only `chainID`
is inspected by the handler, the rest is opaque. -/
structure Promise where
  chainID : Int
  signature : String
deriving DecidableEq, Repr

/-- Request body sent to the hermes (`RequestPromise`, declared elsewhere
in the repository; fields from their uses in `requestPromise`). -/
structure RequestPromiseMsg where
  exchangeMessage : ExchangeMessage
  transactorFee : Int
  rRecoveryData : String
deriving DecidableEq, Repr

/-- Stored hermes promise record (`HermesPromise`, declared elsewhere in
the repository; fields from their uses in `requestPromise`/`revealR`). -/
structure HermesPromise where
  channelID : String
  identity : Identity
  hermesID : EthAddress
  promise : Promise
  R : String
  revealed : Bool
  agreementID : Int
deriving DecidableEq, Repr

/-- Settlement fee response (`registry.FeesResponse`, external); modelled
from the spec: a fee and a validity flag (`IsValid`). -/
structure FeesResponse where
  fee : Int
  valid : Bool
deriving DecidableEq, Repr

/-- Hermes HTTP caller (`HermesHTTPRequester`), an oracle: `RequestPromise`
returns a promise and an error (both, as in Go), `RevealR` an error. -/
structure HermesCaller where
  requestPromise : RequestPromiseMsg → Promise × Option Err
  revealR : String → String → Int → Option Err

/-- Enqueued request (`enqueuedRequest`); the per-request error channel is
modelled by the `Option Err` result of processing. -/
structure EnqueuedRequest where
  r : List Byte
  em : ExchangeMessage
  providerID : Identity
  sessionID : String

/-- Oracle environment for the handler: its dependency record
(`HermesPromiseHandlerDeps`) plus the external package function
`crypto.GenerateProviderChannelID` and the configured chain id. -/
structure HermesEnv where
  storeResult : HermesPromise → Option Err
  fetchSettleFees : Int → Except Err FeesResponse
  encrypt : EthAddress → List Byte → Except Err (List Byte)
  decrypt : EthAddress → List Byte → Except Err (List Byte)
  getHermesURL : EthAddress → Except Err String
  hermesCallerFactory : String → HermesCaller
  generateProviderChannelID : String → String → Except Err String
  chainID : Int

/-- Observable calls and publications of the handler, in program order. -/
inductive HEv where
  | getHermesURLCall (a : EthAddress)
  | requestPromiseCall (req : RequestPromiseMsg)
  | revealRCall (r : String) (provider : String) (agreementID : Int)
  | storeCall (p : HermesPromise)
  | publishHermesPromise (p : Promise) (hermesID : EthAddress) (providerID : Identity)
  | publishTokensEarned (providerID : Identity) (sessionID : String) (total : Int)

/-! ## Hermes promise handler: operations -/

namespace HermesPromiseHandler

/-- Model of `updateFee`: best-effort refresh of the cached settlement fee,
keeping the old value when the fetch fails (the source logs and returns). -/
def updateFee (env : HermesEnv) (fee : FeesResponse) : FeesResponse :=
  match env.fetchSettleFees env.chainID with
  | .error _ => fee
  | .ok fees => fees

/-- Model of `getHermesCaller`: resolve the hermes URL and build a caller. -/
def getHermesCaller (env : HermesEnv) (hermesID : EthAddress) :
    Except Err HermesCaller × List HEv :=
  match env.getHermesURL hermesID with
  | .error e => (.error (.wrap "could not get hermes URL" e), [.getHermesURLCall hermesID])
  | .ok addr => (.ok (env.hermesCallerFactory addr), [.getHermesURLCall hermesID])

/-- Model of `recoverR`: hex-decode the error payload, decrypt with the
provider's own key, unmarshal `{R, AgreementID}` and reveal with the
recovered values. -/
def recoverR (env : HermesEnv) (aerr : HermesErrorResponse) (providerID : Identity)
    (hermesID : EthAddress) : Option Err × List HEv :=
  match hexDecodeString aerr.data with
  | none => (some (.wrap "could not decode R recovery details" (.msg "encoding hex error")), [])
  | some decoded =>
    match env.decrypt (idToCommonAddress providerID) decoded with
    | .error e => (some (.wrap "could not decrypt R details" e), [])
    | .ok decrypted =>
      match jsonUnmarshalRRecovery decrypted with
      | none => (some (.wrap "could not unmarshal R details" (.msg "json error")), [])
      | some res =>
        match getHermesCaller env hermesID with
        | (.error e, tr) => (some (.wrap "could not get hermes caller" e), tr)
        | (.ok caller, tr) =>
          match caller.revealR res.R providerID.address res.agreementID with
          | some e => (some (.wrap "could not reveal R" e),
              tr ++ [.revealRCall res.R providerID.address res.agreementID])
          | none => (none, tr ++ [.revealRCall res.R providerID.address res.agreementID])

/-- Model of `handleHermesError`: `nil` passes; `ErrNeedsRRecovery` casts to
the structured response and runs recovery; `ErrHermesNoPreviousPromise`
maps to `nil`; everything else is returned verbatim. -/
def handleHermesError (env : HermesEnv) (err : Option Err) (providerID : Identity)
    (hermesID : EthAddress) : Option Err × List HEv :=
  match err with
  | none => (none, [])
  | some e =>
    if errIs e .needsRRecovery then
      match errAsHermesResponse e with
      | none => (some (.msg "could not cast errNeedsRecovery to hermesError"), [])
      | some aer =>
        match recoverR env aer providerID hermesID with
        | (some recoveryErr, tr) => (some recoveryErr, tr)
        | (none, tr) => (none, tr)
    else if errIs e .hermesNoPreviousPromise then (none, [])
    else (some e, [])

/-- Model of `revealR`: skip when already revealed; otherwise resolve the
caller, call `RevealR`, run the error policy, and on success persist the
promise with `revealed=true`, swallowing only the overwrite error. Note
the source wraps the RAW `RevealR` error in its message, not the handled
one it just computed. -/
def revealR (env : HermesEnv) (hermesPromise : HermesPromise) : Option Err × List HEv :=
  if hermesPromise.revealed then (none, [])
  else
    match getHermesCaller env hermesPromise.hermesID with
    | (.error e, tr) => (some (.wrap "could not get hermes caller" e), tr)
    | (.ok caller, tr) =>
      let rawErr := caller.revealR hermesPromise.R hermesPromise.identity.address
        hermesPromise.agreementID
      let handled := handleHermesError env rawErr hermesPromise.identity
        hermesPromise.hermesID
      let tr2 := tr ++ [.revealRCall hermesPromise.R hermesPromise.identity.address
        hermesPromise.agreementID] ++ handled.2
      match handled.1 with
      | some _ => (some (.wrap "could not reveal R" (rawErr.getD (.msg "nil"))), tr2)
      | none =>
        let stored := { hermesPromise with revealed := true }
        match env.storeResult stored with
        | some e =>
          if errIs e .attemptToOverwrite then (none, tr2 ++ [.storeCall stored])
          else (some (.wrap "could not store hermes promise" e),
            tr2 ++ [.storeCall stored])
        | none => (none, tr2 ++ [.storeCall stored])

/-- Model of `requestPromise`, the per-request algorithm. The value sent on
the request's error channel before its deferred close is the middle
component (`none` means the channel closes with no prior value); the new
cached fee is the first component; the trace lists the observable calls
in program order. -/
def requestPromise (env : HermesEnv) (fee0 : FeesResponse) (er : EnqueuedRequest) :
    FeesResponse × Option Err × List HEv :=
  let providerID := er.providerID
  let hermesID := hexToAddress er.em.hermesID
  match env.generateProviderChannelID providerID.address hermesID.hex with
  | .error e => (fee0, some (.wrap "could not generate provider channel address" e), [])
  | .ok channelID =>
    let fee := if fee0.valid then fee0 else updateFee env fee0
    let details : RRecoveryDetails :=
      { R := hexEncodeString er.r, agreementID := er.em.agreementID }
    let payload := jsonMarshalRRecovery details
    match env.encrypt (idToCommonAddress providerID) payload with
    | .error e => (fee, some (.wrap "could not encrypt R" e), [])
    | .ok encrypted =>
      let request : RequestPromiseMsg :=
        { exchangeMessage := er.em, transactorFee := fee.fee,
          rRecoveryData := hexEncodeString encrypted }
      match getHermesCaller env hermesID with
      | (.error e, tr) => (fee, some (.wrap "could not get hermes caller" e), tr)
      | (.ok caller, tr) =>
        let callRes := caller.requestPromise request
        let tr1 := tr ++ [.requestPromiseCall request]
        let handled := handleHermesError env callRes.2 providerID hermesID
        let tr2 := tr1 ++ handled.2
        match handled.1 with
        | some e => (fee, some (.wrap "hermes request promise error" e), tr2)
        | none =>
          let ap : HermesPromise :=
            { channelID := channelID, identity := providerID, hermesID := hermesID,
              promise := callRes.1, R := hexEncodeString er.r, revealed := false,
              agreementID := er.em.agreementID }
          let storeRes := env.storeResult ap
          let tr3 := tr2 ++ [.storeCall ap]
          let proceed : FeesResponse × Option Err × List HEv :=
            let tr4 := tr3 ++ [.publishHermesPromise callRes.1 hermesID providerID,
              .publishTokensEarned providerID er.sessionID er.em.agreementTotal]
            let rv := revealR env ap
            let handled2 := handleHermesError env rv.1 providerID hermesID
            let tr5 := tr4 ++ rv.2 ++ handled2.2
            match handled2.1 with
            | some e => (fee, some (.wrap "hermes reveal r error" e), tr5)
            | none => (fee, none, tr5)
          match storeRes with
          | some e =>
            if errIs e .attemptToOverwrite then proceed
            else (fee, some (.wrap "could not store hermes promise" e), tr3)
          | none => proceed

end HermesPromiseHandler

/-! ## Session manager: data model

The `Session` type and `NewSession` are declared elsewhere in the
repository; modelled from the spec (§3) and from the fields the manager
sets. The session store implementation is likewise external; modelled
from the spec (§4.A contract): an id-keyed collection with primary and
`(peer, service type)` lookup. A session's `done` channel is a one-shot
signal shared by reference; its closed/open status is tracked per
session id in the manager state, a fresh open channel being allocated
at session construction. Go panics on closing a closed channel; the
`Bool` paired with `destroySession`'s state records that panic. -/

/-- Service proposal snapshot (`market.ServiceProposal` fields used). -/
structure Proposal where
  id : Int
  providerID : String
  serviceType : String
deriving DecidableEq, Repr

/-- Session record; `done` status lives in `SMState.closedDone`. -/
structure Session where
  id : String
  serviceID : String
  consumerID : Identity
  accountantID : EthAddress
  proposal : Proposal
  createdAt : Nat
deriving DecidableEq, Repr

/-- Zero session value (`&Session{}`). -/
def emptySession : Session :=
  { id := "", serviceID := "", consumerID := ⟨""⟩, accountantID := ⟨""⟩,
    proposal := { id := 0, providerID := "", serviceType := "" }, createdAt := 0 }

/-- Manager-visible state: the session store contents and the set of
session ids whose `done` channel has been closed. -/
structure SMState where
  store : List Session
  closedDone : List String
deriving DecidableEq, Repr

namespace SessionStorage

/-- Modelled from the spec: `Add` inserts, a duplicate id overwrites. -/
def add (store : List Session) (s : Session) : List Session :=
  s :: store.filter fun x => x.id ≠ s.id

/-- Modelled from the spec: `Find` by primary key. -/
def find (store : List Session) (sid : String) : Option Session :=
  store.find? fun x => x.id = sid

/-- Modelled from the spec: `FindBy` on `(peer, service type)`. -/
def findBy (store : List Session) (peer : Identity) (serviceType : String) :
    Option Session :=
  store.find? fun x => x.consumerID = peer ∧ x.proposal.serviceType = serviceType

/-- Modelled from the spec: `Remove` by id, idempotent. -/
def remove (store : List Session) (sid : String) : List Session :=
  store.filter fun x => x.id ≠ sid

end SessionStorage

/-- Validation error `ErrorInvalidProposal`. -/
def ErrorInvalidProposal : Err := .msg "proposal does not exist"

/-- Validation error `ErrorSessionNotExists`. -/
def ErrorSessionNotExists : Err := .msg "session does not exists"

/-- Validation error `ErrorWrongSessionOwner`. -/
def ErrorWrongSessionOwner : Err := .msg "wrong session owner"

/-- Payment engine oracle (`PaymentEngine` contract): the result of its
`Start` goroutine and of `WaitFirstInvoice` for a given timeout. -/
structure PaymentEngine where
  startResult : Option Err
  waitFirstInvoice : Nat → Option Err

/-- Oracle environment of the session manager: the advertised proposal,
the service id, the id generator behind `NewSession` (modelled from the
spec), the payment engine factory and the current clock. -/
structure SMEnv where
  currentProposal : Proposal
  serviceId : String
  newSessionResult : Except Err String
  engineFactory : Identity → Identity → EthAddress → String → Except Err PaymentEngine
  now : Nat

/-- Observable actions of the session manager, in program order. Goroutine
spawns are recorded, not executed: the model is the sequential path. -/
inductive SMEv where
  | spawnDestroyStale (sid : String)
  | spawnEngineStopWatcher (sid : String)
  | spawnEngineStart (sid : String)
  | spawnKeepAlive (sid : String)
  | channelClose
  | registerKeepAliveHandler
  | sendPing (sid : String)
deriving DecidableEq, Repr

namespace SessionManager

/-- Model of `destroySession`: remove from the store, then `close(done)`.
The boolean records the Go runtime panic raised by closing an
already-closed channel; there is no guard in the source. -/
def destroySession (st : SMState) (s : Session) : SMState × Bool :=
  let st1 : SMState := { st with store := SessionStorage.remove st.store s.id }
  if s.id ∈ st1.closedDone then (st1, true)
  else ({ st1 with closedDone := s.id :: st1.closedDone }, false)

/-- Model of `clearStaleSession`: look up the stale session and spawn its
asynchronous destruction. -/
def clearStaleSession (st : SMState) (consumerID : Identity)
    (serviceType : String) : List SMEv :=
  match SessionStorage.findBy st.store consumerID serviceType with
  | some s => [.spawnDestroyStale s.id]
  | none => []

/-- Result of `Start`: the manager state, the returned session and error,
the trace, and whether a channel double-close panic occurred. -/
structure StartOutcome where
  state : SMState
  session : Session
  err : Option Err
  trace : List SMEv
  panicked : Bool
deriving Repr

/-- Model of `Start`: the admission critical section, sequentially (the
spawned goroutines are recorded in the trace). -/
def Start (env : SMEnv) (st : SMState) (consumerID : Identity)
    (accountantID : EthAddress) (proposalID : Int) : StartOutcome :=
  if env.currentProposal.id ≠ proposalID then
    { state := st, session := emptySession, err := some ErrorInvalidProposal,
      trace := [], panicked := false }
  else
    let tr0 := clearStaleSession st consumerID env.currentProposal.serviceType
    match env.newSessionResult with
    | .error e =>
      { state := st, session := emptySession,
        err := some (.wrap "cannot create new session" e), trace := tr0,
        panicked := false }
    | .ok sid =>
      let session : Session :=
        { id := sid, serviceID := env.serviceId, consumerID := consumerID,
          accountantID := accountantID, proposal := env.currentProposal,
          createdAt := env.now }
      let st1 : SMState := { st with closedDone := st.closedDone.filter fun x => x ≠ sid }
      match env.engineFactory ⟨env.currentProposal.providerID⟩ consumerID
          accountantID sid with
      | .error e =>
        { state := st1, session := session, err := some e, trace := tr0,
          panicked := false }
      | .ok engine =>
        let tr1 := tr0 ++ [.spawnEngineStopWatcher sid, .spawnEngineStart sid]
        match engine.waitFirstInvoice 30 with
        | some e =>
          let des := destroySession st1 session
          { state := des.1, session := session,
            err := some (.wrap "first invoice was not paid" e),
            trace := tr1, panicked := des.2 }
        | none =>
          { state := { st1 with store := SessionStorage.add st1.store session },
            session := session, err := none,
            trace := tr1 ++ [.spawnKeepAlive sid], panicked := false }

/-- Model of `Destroy`: look up, verify ownership, close the p2p channel,
destroy the session. -/
def Destroy (st : SMState) (consumerID : Identity) (sessionID : String) :
    SMState × Option Err × List SMEv × Bool :=
  match SessionStorage.find st.store sessionID with
  | none => (st, some ErrorSessionNotExists, [], false)
  | some s =>
    if s.consumerID ≠ consumerID then (st, some ErrorWrongSessionOwner, [], false)
    else
      let des := destroySession st s
      (des.1, none, [.channelClose], des.2)

/-- One observation of the keep-alive loop per iteration: either the
session's `done` fires, or the interval timer fires and the ping send
returns the given result. -/
inductive Tick where
  | done
  | send (result : Option Err)
deriving DecidableEq, Repr

/-- How the keep-alive loop left the observation window. -/
inductive KAOutcome where
  | exitedOnDone
  | closedChannel
  | running
  | nilChannel
deriving DecidableEq, Repr

/-- Model of the `for`/`select` body of `keepAliveLoop`: a failed send
increments the error counter, a successful send resets it; when the
counter reaches `MaxSendErrCount` the p2p channel is closed and the loop
exits; `done` exits immediately. -/
def keepAliveRun (maxErrCount : Nat) (sid : String) :
    Nat → SMState → List Tick → KAOutcome × SMState × List SMEv
  | _, st, [] => (.running, st, [])
  | _, st, .done :: _ => (.exitedOnDone, st, [])
  | errCount, st, .send r :: rest =>
    match r with
    | some _ =>
      if errCount + 1 = maxErrCount then
        (.closedChannel, st, [.sendPing sid, .channelClose])
      else
        let res := keepAliveRun maxErrCount sid (errCount + 1) st rest
        (res.1, res.2.1, .sendPing sid :: res.2.2)
    | none =>
      let res := keepAliveRun maxErrCount sid 0 st rest
      (res.1, res.2.1, .sendPing sid :: res.2.2)

/-- Model of `keepAliveLoop`: immediate return on a nil channel, otherwise
register the inbound ping handler and run the send loop. -/
def keepAliveLoop (maxErrCount : Nat) (hasChannel : Bool) (sid : String)
    (st : SMState) (ticks : List Tick) : KAOutcome × SMState × List SMEv :=
  if hasChannel then
    let res := keepAliveRun maxErrCount sid 0 st ticks
    (res.1, res.2.1, .registerKeepAliveHandler :: res.2.2)
  else (.nilChannel, st, [])

end SessionManager

/-! ## Helper lemmas on the error model -/

/-- An error value matches at most one sentinel. -/
theorem errIs_exclusive {e : Err} {s1 s2 : Sentinel} (h1 : errIs e s1 = true)
    (h2 : s1 ≠ s2) : errIs e s2 = false := by
  induction e with
  | sentinel s' =>
    simp only [errIs, decide_eq_true_eq] at h1
    simp only [errIs, decide_eq_false_iff_not]
    rw [h1]
    exact h2
  | hermesResponse c d m =>
    simp only [errIs, decide_eq_true_eq] at h1
    simp only [errIs, decide_eq_false_iff_not, h1, Option.some.injEq]
    exact fun hc => h2 hc
  | msg m => simp [errIs]
  | wrap m e ih =>
    simp only [errIs] at h1 ⊢
    exact ih h1

/-! ## Example fixtures used by witnesses and counterexamples -/

/-- Example proposal. -/
def exProposal : Proposal := { id := 7, providerID := "prov", serviceType := "vpn" }

/-- Example session. -/
def exSession : Session :=
  { id := "s1", serviceID := "svc", consumerID := ⟨"c"⟩, accountantID := ⟨"a"⟩,
    proposal := exProposal, createdAt := 0 }

/-- Example hermes caller whose calls all succeed. -/
def exCaller : HermesCaller :=
  { requestPromise := fun _ => ({ chainID := 1, signature := "sig" }, none)
    revealR := fun _ _ _ => none }

/-- Example hermes environment whose oracles all succeed. -/
def exEnv : HermesEnv :=
  { storeResult := fun _ => none
    fetchSettleFees := fun _ => .ok { fee := 1, valid := true }
    encrypt := fun _ bs => .ok bs
    decrypt := fun _ bs => .ok bs
    getHermesURL := fun _ => .ok "url"
    hermesCallerFactory := fun _ => exCaller
    generateProviderChannelID := fun p h => .ok (String.append p h)
    chainID := 1 }

/-- Example already-revealed hermes promise. -/
def exPromiseRevealed : HermesPromise :=
  { channelID := "chan", identity := ⟨"prov"⟩, hermesID := ⟨"herm"⟩,
    promise := { chainID := 1, signature := "sig" }, R := "ab",
    revealed := true, agreementID := 42 }

/-- Example unrevealed hermes promise. -/
def exPromiseUnrevealed : HermesPromise :=
  { exPromiseRevealed with revealed := false }

/-! ## C10 -/

/-- C10: for every `HermesPromise` whose `Revealed` field is already true,
`revealR` returns nil immediately, with no hermes caller resolution, no
`RevealR` call and no store (the trace is empty). -/
theorem C10_revealR_idempotent (env : HermesEnv) (hp : HermesPromise)
    (h : hp.revealed = true) :
    HermesPromiseHandler.revealR env hp = (none, []) := by
  unfold HermesPromiseHandler.revealR
  rw [h]
  simp

/-- Witness for C10 at a concrete revealed promise. -/
theorem C10_witness :
    HermesPromiseHandler.revealR exEnv exPromiseRevealed = (none, []) :=
  C10_revealR_idempotent exEnv exPromiseRevealed rfl

/-! ## C3 -/

/-- C3: `handleHermesError` maps nil to nil; maps
`ErrHermesNoPreviousPromise` to nil; for a castable `ErrNeedsRRecovery`
its result is exactly the R-recovery chain's result (nil exactly when the
chain succeeds, otherwise the chain's failure); every other error is
returned verbatim. -/
theorem C3_handleHermesError_policy (env : HermesEnv) (pid : Identity)
    (hid : EthAddress) :
    HermesPromiseHandler.handleHermesError env none pid hid = (none, []) ∧
    (∀ e : Err, errIs e .hermesNoPreviousPromise = true →
      HermesPromiseHandler.handleHermesError env (some e) pid hid = (none, [])) ∧
    (∀ (e : Err) (aer : HermesErrorResponse), errIs e .needsRRecovery = true →
      errAsHermesResponse e = some aer →
      (HermesPromiseHandler.handleHermesError env (some e) pid hid).1 =
        (HermesPromiseHandler.recoverR env aer pid hid).1) ∧
    (∀ e : Err, errIs e .needsRRecovery = false →
      errIs e .hermesNoPreviousPromise = false →
      HermesPromiseHandler.handleHermesError env (some e) pid hid = (some e, [])) := by
  refine ⟨rfl, ?_, ?_, ?_⟩
  · intro e he
    have hnr : errIs e .needsRRecovery = false :=
      errIs_exclusive he (by intro hcon; cases hcon)
    simp [HermesPromiseHandler.handleHermesError, hnr, he]
  · intro e aer he has
    rcases hrec : HermesPromiseHandler.recoverR env aer pid hid with ⟨o, tr⟩
    cases o <;>
      simp [HermesPromiseHandler.handleHermesError, he, has, hrec]
  · intro e h1 h2
    simp [HermesPromiseHandler.handleHermesError, h1, h2]

/-- Witness for C3 at concrete errors of each handled shape. -/
theorem C3_witness :
    HermesPromiseHandler.handleHermesError exEnv (some ErrHermesNoPreviousPromise)
      ⟨"prov"⟩ ⟨"herm"⟩ = (none, []) ∧
    HermesPromiseHandler.handleHermesError exEnv (some (Err.msg "boom"))
      ⟨"prov"⟩ ⟨"herm"⟩ = (some (Err.msg "boom"), []) :=
  ⟨(C3_handleHermesError_policy exEnv ⟨"prov"⟩ ⟨"herm"⟩).2.1
      ErrHermesNoPreviousPromise (by decide),
   (C3_handleHermesError_policy exEnv ⟨"prov"⟩ ⟨"herm"⟩).2.2.2
      (Err.msg "boom") (by decide) (by decide)⟩

/-! ## C7 -/

/-- C7: for every `Start` call whose proposal id differs from the current
proposal's id, `Start` returns `ErrorInvalidProposal` with the zero
session, the state (and hence the session store) unchanged, and an empty
trace: no stale eviction, no engine instantiation, no spawns, no add. -/
theorem C7_start_invalid_proposal (env : SMEnv) (st : SMState) (c : Identity)
    (a : EthAddress) (pid : Int) (h : env.currentProposal.id ≠ pid) :
    SessionManager.Start env st c a pid =
      { state := st, session := emptySession, err := some ErrorInvalidProposal,
        trace := [], panicked := false } := by
  unfold SessionManager.Start
  rw [if_pos h]

/-- Example session manager environment with proposal id 7. -/
def exSMEnv : SMEnv :=
  { currentProposal := exProposal
    serviceId := "svc"
    newSessionResult := .ok "s2"
    engineFactory := fun _ _ _ _ =>
      .ok { startResult := none, waitFirstInvoice := fun _ => none }
    now := 5 }

/-- Witness for C7: proposal id 8 against current id 7. -/
theorem C7_witness :
    SessionManager.Start exSMEnv { store := [], closedDone := [] } ⟨"c"⟩ ⟨"a"⟩ 8 =
      { state := { store := [], closedDone := [] }, session := emptySession,
        err := some ErrorInvalidProposal, trace := [], panicked := false } :=
  C7_start_invalid_proposal exSMEnv { store := [], closedDone := [] } ⟨"c"⟩ ⟨"a"⟩ 8
    (by decide)

/-! ## C1 -/

/-- C1 (code bug): a second invocation of `destroySession` for a session
whose `done` is already closed is NOT a no-op in the source: the
unguarded `close(session.done)` raises the Go runtime's double-close
panic. Evaluated at the concrete failing input: the first destruction
succeeds without panic, the second one panics. -/
theorem C1_destroySession_double_close_panics :
    (SessionManager.destroySession { store := [exSession], closedDone := [] }
      exSession).2 = false ∧
    (SessionManager.destroySession
      (SessionManager.destroySession { store := [exSession], closedDone := [] }
        exSession).1 exSession).2 = true := by
  constructor <;> rfl

/-! ## C9 -/

/-- Error returned by the hermes `RevealR` in the C9 scenario: a structured
response that needs R recovery but carries an undecodable payload. -/
def rawErrC9 : Err := .hermesResponse (some .needsRRecovery) "zz" "needs recovery"

/-- The handled error the policy computes for `rawErrC9`: the recovery
chain fails at hex decoding. -/
def handledErrC9 : Err :=
  .wrap "could not decode R recovery details" (.msg "encoding hex error")

/-- Hermes environment whose `RevealR` fails with `rawErrC9`. -/
def exEnvC9 : HermesEnv :=
  { exEnv with hermesCallerFactory := fun _ =>
      { requestPromise := fun _ => ({ chainID := 1, signature := "sig" }, none)
        revealR := fun _ _ _ => some rawErrC9 } }

/-- C9 (code bug): in `revealR`, when `RevealR` fails and the handled error
is non-nil, the source wraps the RAW `RevealR` error, not the handled
error it just computed: at the concrete failing input the returned error
wraps `rawErrC9` while the handled (authoritative) cause is
`handledErrC9`, a different error. -/
theorem C9_revealR_wraps_raw_not_handled :
    (HermesPromiseHandler.revealR exEnvC9 exPromiseUnrevealed).1 =
      some (.wrap "could not reveal R" rawErrC9) ∧
    (HermesPromiseHandler.handleHermesError exEnvC9 (some rawErrC9)
      exPromiseUnrevealed.identity exPromiseUnrevealed.hermesID).1 =
      some handledErrC9 ∧
    Err.wrap "could not reveal R" rawErrC9 ≠
      Err.wrap "could not reveal R" handledErrC9 := by
  refine ⟨rfl, rfl, ?_⟩
  decide

/-! ## C6 -/

/-- Removing a session id from the store makes the primary lookup miss. -/
theorem SessionStorage.find_remove (store : List Session) (sid : String) :
    SessionStorage.find (SessionStorage.remove store sid) sid = none := by
  unfold SessionStorage.find SessionStorage.remove
  rw [List.find?_eq_none]
  intro x hx
  have hne := (List.mem_filter.mp hx).2
  simp only [decide_eq_true_eq] at hne
  simp only [decide_eq_true_eq]
  exact hne

/-- C6: for every admission where `WaitFirstInvoice(30 s)` fails, `Start`
destroys the session (absent from the store, `done` closed, no
double-close panic) and returns an error wrapping the `WaitFirstInvoice`
error. -/
theorem C6_first_invoice_failure_destroys (env : SMEnv) (st : SMState)
    (c : Identity) (a : EthAddress) (pid : Int) (sid : String)
    (engine : PaymentEngine) (werr : Err)
    (hprop : env.currentProposal.id = pid)
    (hnew : env.newSessionResult = .ok sid)
    (heng : env.engineFactory ⟨env.currentProposal.providerID⟩ c a sid = .ok engine)
    (hwait : engine.waitFirstInvoice 30 = some werr) :
    (SessionManager.Start env st c a pid).err =
      some (.wrap "first invoice was not paid" werr) ∧
    (SessionManager.Start env st c a pid).session.id = sid ∧
    SessionStorage.find (SessionManager.Start env st c a pid).state.store sid = none ∧
    sid ∈ (SessionManager.Start env st c a pid).state.closedDone ∧
    (SessionManager.Start env st c a pid).panicked = false := by
  have hcond : ¬ env.currentProposal.id ≠ pid := fun hcon => hcon hprop
  have hmem : sid ∉ st.closedDone.filter fun x => decide (x ≠ sid) := by simp
  have hstart : SessionManager.Start env st c a pid =
      { state := { store := SessionStorage.remove st.store sid,
                   closedDone := sid :: st.closedDone.filter (fun x => decide (x ≠ sid)) },
        session := { id := sid, serviceID := env.serviceId, consumerID := c,
                     accountantID := a, proposal := env.currentProposal,
                     createdAt := env.now },
        err := some (.wrap "first invoice was not paid" werr),
        trace := SessionManager.clearStaleSession st c env.currentProposal.serviceType
          ++ [.spawnEngineStopWatcher sid, .spawnEngineStart sid],
        panicked := false } := by
    unfold SessionManager.Start
    rw [if_neg hcond, hnew]
    simp only [heng, hwait, SessionManager.destroySession, if_neg hmem]
  rw [hstart]
  refine ⟨rfl, rfl, SessionStorage.find_remove st.store sid, List.mem_cons_self _ _, rfl⟩

/-- Payment engine that never sees a first invoice. -/
def exEngineC6 : PaymentEngine :=
  { startResult := none, waitFirstInvoice := fun _ => some (.msg "timeout") }

/-- Session manager environment whose engine never sees a first invoice. -/
def exSMEnvC6 : SMEnv :=
  { currentProposal := exProposal
    serviceId := "svc"
    newSessionResult := .ok "s2"
    engineFactory := fun _ _ _ _ => .ok exEngineC6
    now := 5 }

/-- Witness for C6 at a concrete timed-out admission. -/
theorem C6_witness :
    (SessionManager.Start exSMEnvC6 { store := [], closedDone := [] } ⟨"c"⟩ ⟨"a"⟩ 7).err =
      some (.wrap "first invoice was not paid" (.msg "timeout")) ∧
    (SessionManager.Start exSMEnvC6 { store := [], closedDone := [] } ⟨"c"⟩ ⟨"a"⟩ 7).session.id = "s2" ∧
    SessionStorage.find
      (SessionManager.Start exSMEnvC6 { store := [], closedDone := [] } ⟨"c"⟩ ⟨"a"⟩ 7).state.store
      "s2" = none ∧
    "s2" ∈ (SessionManager.Start exSMEnvC6 { store := [], closedDone := [] } ⟨"c"⟩ ⟨"a"⟩ 7).state.closedDone ∧
    (SessionManager.Start exSMEnvC6 { store := [], closedDone := [] } ⟨"c"⟩ ⟨"a"⟩ 7).panicked = false :=
  C6_first_invoice_failure_destroys exSMEnvC6 { store := [], closedDone := [] }
    ⟨"c"⟩ ⟨"a"⟩ 7 "s2" exEngineC6 (.msg "timeout") rfl rfl rfl rfl

/-! ## Characterization of the store steps (shared by C5 and C2) -/

/-- On the success path up to the `RevealR` call, `revealR`'s result is
decided by the store outcome: overwrite errors are swallowed, other
store errors abort with a wrap. -/
theorem revealR_store_characterization (env : HermesEnv) (hp : HermesPromise)
    (url : String)
    (hrev : hp.revealed = false)
    (hurl : env.getHermesURL hp.hermesID = .ok url)
    (hcall : (env.hermesCallerFactory url).revealR hp.R hp.identity.address
      hp.agreementID = none) :
    (HermesPromiseHandler.revealR env hp).1 =
      match env.storeResult { hp with revealed := true } with
      | some e =>
        if errIs e .attemptToOverwrite then none
        else some (.wrap "could not store hermes promise" e)
      | none => none := by
  rcases hs : env.storeResult { hp with revealed := true } with _ | e
  · simp [HermesPromiseHandler.revealR, HermesPromiseHandler.getHermesCaller,
      HermesPromiseHandler.handleHermesError, hrev, hurl, hcall, hs]
  · by_cases he : errIs e .attemptToOverwrite
    · simp [HermesPromiseHandler.revealR, HermesPromiseHandler.getHermesCaller,
        HermesPromiseHandler.handleHermesError, hrev, hurl, hcall, hs, he]
    · simp [HermesPromiseHandler.revealR, HermesPromiseHandler.getHermesCaller,
        HermesPromiseHandler.handleHermesError, hrev, hurl, hcall, hs, he]

/-- Request body built by `requestPromise` (lines building `RequestPromise`),
as a named abbreviation for theorem statements. -/
def builtRequest (fee0 : FeesResponse) (er : EnqueuedRequest) (ct : List Byte) :
    RequestPromiseMsg :=
  { exchangeMessage := er.em, transactorFee := fee0.fee,
    rRecoveryData := hexEncodeString ct }

/-- Hermes promise record built by `requestPromise` (the `ap` literal),
as a named abbreviation for theorem statements. -/
def builtPromise (env : HermesEnv) (fee0 : FeesResponse) (er : EnqueuedRequest)
    (cid : String) (ct : List Byte) (url : String) : HermesPromise :=
  { channelID := cid, identity := er.providerID,
    hermesID := hexToAddress er.em.hermesID,
    promise := ((env.hermesCallerFactory url).requestPromise
      (builtRequest fee0 er ct)).1,
    R := hexEncodeString er.r, revealed := false,
    agreementID := er.em.agreementID }

/-- Error the tail of `requestPromise` produces from the reveal chain, as a
named abbreviation for theorem statements. -/
def revealErrOf (env : HermesEnv) (fee0 : FeesResponse) (er : EnqueuedRequest)
    (cid : String) (ct : List Byte) (url : String) : Option Err :=
  match (HermesPromiseHandler.handleHermesError env
    (HermesPromiseHandler.revealR env (builtPromise env fee0 er cid ct url)).1
    er.providerID (hexToAddress er.em.hermesID)).1 with
  | some e2 => some (.wrap "hermes reveal r error" e2)
  | none => none

/-- On the success path up to the hermes `RequestPromise` call, the result
of `requestPromise` is decided by the store outcome: overwrite errors are
swallowed and processing continues into the publish/reveal tail exactly
as on a successful store; other store errors abort with a wrap. -/
theorem requestPromise_store_characterization (env : HermesEnv)
    (fee0 : FeesResponse) (er : EnqueuedRequest) (cid : String) (ct : List Byte)
    (url : String)
    (hvalid : fee0.valid = true)
    (hgen : env.generateProviderChannelID er.providerID.address
      (hexToAddress er.em.hermesID).hex = .ok cid)
    (henc : env.encrypt (idToCommonAddress er.providerID)
      (jsonMarshalRRecovery
        { R := hexEncodeString er.r, agreementID := er.em.agreementID }) = .ok ct)
    (hurl : env.getHermesURL (hexToAddress er.em.hermesID) = .ok url)
    (hcall : ((env.hermesCallerFactory url).requestPromise
      (builtRequest fee0 er ct)).2 = none) :
    ((HermesPromiseHandler.requestPromise env fee0 er).2.1 =
      match env.storeResult (builtPromise env fee0 er cid ct url) with
      | some e =>
        if errIs e .attemptToOverwrite then revealErrOf env fee0 er cid ct url
        else some (.wrap "could not store hermes promise" e)
      | none => revealErrOf env fee0 er cid ct url) ∧
    ((env.storeResult (builtPromise env fee0 er cid ct url) = none ∨
      ∃ e, env.storeResult (builtPromise env fee0 er cid ct url) = some e ∧
        errIs e .attemptToOverwrite = true) →
      HEv.publishTokensEarned er.providerID er.sessionID er.em.agreementTotal ∈
        (HermesPromiseHandler.requestPromise env fee0 er).2.2) := by
  have hHne : HermesPromiseHandler.handleHermesError env none er.providerID
      (hexToAddress er.em.hermesID) = (none, []) := rfl
  rcases hs : env.storeResult (builtPromise env fee0 er cid ct url) with _ | e
  · simp only [builtPromise, builtRequest] at hs hcall
    constructor
    · simp only [HermesPromiseHandler.requestPromise,
        HermesPromiseHandler.getHermesCaller, hvalid, hgen, henc, hurl, hcall, hs,
        hHne, revealErrOf, builtPromise, builtRequest, if_true, List.nil_append,
        List.append_nil]
      split <;> rename_i heq <;> simp [heq]
    · intro _
      simp only [HermesPromiseHandler.requestPromise,
        HermesPromiseHandler.getHermesCaller, hvalid, hgen, henc, hurl, hcall, hs,
        hHne, if_true, List.nil_append, List.append_nil]
      split <;> simp
  · simp only [builtPromise, builtRequest] at hs hcall
    by_cases he : errIs e .attemptToOverwrite
    · constructor
      · simp only [HermesPromiseHandler.requestPromise,
          HermesPromiseHandler.getHermesCaller, hvalid, hgen, henc, hurl, hcall, hs,
          he, hHne, revealErrOf, builtPromise, builtRequest, if_true,
          List.nil_append, List.append_nil]
        split <;> rename_i heq <;> simp [heq]
      · intro _
        simp only [HermesPromiseHandler.requestPromise,
          HermesPromiseHandler.getHermesCaller, hvalid, hgen, henc, hurl, hcall, hs,
          he, hHne, if_true, List.nil_append, List.append_nil]
        split <;> simp
    · constructor
      · simp only [HermesPromiseHandler.requestPromise,
          HermesPromiseHandler.getHermesCaller, hvalid, hgen, henc, hurl, hcall, hs,
          he, hHne, if_true, List.nil_append, List.append_nil]
        simp [he]
      · intro hcon
        rcases hcon with hcon | ⟨e2, he2, hov⟩
        · exact Option.noConfusion hcon
        · cases Option.some.inj he2
          exact absurd hov he

/-! ## C5 -/

/-- C5: in both promise stores — the pre-reveal store (`revealed=false`) in
`requestPromise` and the post-reveal store (`revealed=true`) in
`revealR` — a storage error matching `ErrAttemptToOverwrite` is silently
swallowed and processing continues exactly as on a successful store,
while any other storage error aborts the current step with a wrapped
error. -/
theorem C5_store_overwrite_swallowed (env : HermesEnv) (hp : HermesPromise)
    (url1 : String) (fee0 : FeesResponse) (er : EnqueuedRequest) (cid : String)
    (ct : List Byte) (url2 : String)
    (hrev : hp.revealed = false)
    (hurl1 : env.getHermesURL hp.hermesID = .ok url1)
    (hcall1 : (env.hermesCallerFactory url1).revealR hp.R hp.identity.address
      hp.agreementID = none)
    (hvalid : fee0.valid = true)
    (hgen : env.generateProviderChannelID er.providerID.address
      (hexToAddress er.em.hermesID).hex = .ok cid)
    (henc : env.encrypt (idToCommonAddress er.providerID)
      (jsonMarshalRRecovery
        { R := hexEncodeString er.r, agreementID := er.em.agreementID }) = .ok ct)
    (hurl2 : env.getHermesURL (hexToAddress er.em.hermesID) = .ok url2)
    (hcall2 : ((env.hermesCallerFactory url2).requestPromise
      (builtRequest fee0 er ct)).2 = none) :
    ((HermesPromiseHandler.revealR env hp).1 =
      match env.storeResult { hp with revealed := true } with
      | some e =>
        if errIs e .attemptToOverwrite then none
        else some (.wrap "could not store hermes promise" e)
      | none => none) ∧
    ((HermesPromiseHandler.requestPromise env fee0 er).2.1 =
      match env.storeResult (builtPromise env fee0 er cid ct url2) with
      | some e =>
        if errIs e .attemptToOverwrite then revealErrOf env fee0 er cid ct url2
        else some (.wrap "could not store hermes promise" e)
      | none => revealErrOf env fee0 er cid ct url2) ∧
    ((env.storeResult (builtPromise env fee0 er cid ct url2) = none ∨
      ∃ e, env.storeResult (builtPromise env fee0 er cid ct url2) = some e ∧
        errIs e .attemptToOverwrite = true) →
      HEv.publishTokensEarned er.providerID er.sessionID er.em.agreementTotal ∈
        (HermesPromiseHandler.requestPromise env fee0 er).2.2) :=
  ⟨revealR_store_characterization env hp url1 hrev hurl1 hcall1,
   (requestPromise_store_characterization env fee0 er cid ct url2 hvalid hgen henc
     hurl2 hcall2).1,
   (requestPromise_store_characterization env fee0 er cid ct url2 hvalid hgen henc
     hurl2 hcall2).2⟩

/-- Environment whose promise store always reports an overwrite attempt. -/
def exEnvC5 : HermesEnv :=
  { exEnv with storeResult := fun _ => some ErrAttemptToOverwrite }

/-- Example enqueued request. -/
def exER : EnqueuedRequest :=
  { r := [(171 : Fin 256)],
    em := { hermesID := "h", agreementID := 42, agreementTotal := 100, chainID := 1 },
    providerID := ⟨"prov"⟩, sessionID := "sess" }

/-- Example valid fee. -/
def exFee : FeesResponse := { fee := 1, valid := true }

/-- Witness for C5 at a store that reports an overwrite attempt: the reveal
store swallows it, and the request pipeline still publishes earnings. -/
theorem C5_witness :
    (HermesPromiseHandler.revealR exEnvC5 exPromiseUnrevealed).1 = none ∧
    HEv.publishTokensEarned exER.providerID exER.sessionID exER.em.agreementTotal ∈
      (HermesPromiseHandler.requestPromise exEnvC5 exFee exER).2.2 := by
  have h := C5_store_overwrite_swallowed exEnvC5 exPromiseUnrevealed "url" exFee exER
    (String.append "prov" "h")
    (jsonMarshalRRecovery
      { R := hexEncodeString exER.r, agreementID := exER.em.agreementID })
    "url" rfl rfl rfl rfl rfl rfl rfl rfl
  refine ⟨?_, h.2.2 (Or.inr ⟨ErrAttemptToOverwrite, rfl, by decide⟩)⟩
  rw [h.1]
  rfl

/-! ## C2 -/

/-- Fee used by a request: the cached fee, refreshed when invalid
(lines checking `IsValid` before building the request). -/
def cachedFee (env : HermesEnv) (fee0 : FeesResponse) : FeesResponse :=
  if fee0.valid then fee0 else HermesPromiseHandler.updateFee env fee0

/-- C2: the error channel of a request is closed when processing completes
(the function returns), carries at most the one value modelled by the
`Option Err` component, and that component is `none` — a close with no
prior value — exactly when every step of the per-request algorithm
succeeded: channel-id derivation, encryption of the recovery payload,
hermes caller resolution, the promise request surviving the error
policy, the store succeeding or failing only with an overwrite, and the
reveal tail surviving the error policy. -/
theorem C2_error_channel_success_iff (env : HermesEnv) (fee0 : FeesResponse)
    (er : EnqueuedRequest) :
    (HermesPromiseHandler.requestPromise env fee0 er).2.1 = none ↔
      ∃ cid ct url,
        env.generateProviderChannelID er.providerID.address
          (hexToAddress er.em.hermesID).hex = .ok cid ∧
        env.encrypt (idToCommonAddress er.providerID)
          (jsonMarshalRRecovery
            { R := hexEncodeString er.r, agreementID := er.em.agreementID }) =
          .ok ct ∧
        env.getHermesURL (hexToAddress er.em.hermesID) = .ok url ∧
        (HermesPromiseHandler.handleHermesError env
          ((env.hermesCallerFactory url).requestPromise
            (builtRequest (cachedFee env fee0) er ct)).2
          er.providerID (hexToAddress er.em.hermesID)).1 = none ∧
        (env.storeResult (builtPromise env (cachedFee env fee0) er cid ct url) = none ∨
          ∃ e, env.storeResult (builtPromise env (cachedFee env fee0) er cid ct url) =
            some e ∧ errIs e .attemptToOverwrite = true) ∧
        (HermesPromiseHandler.handleHermesError env
          (HermesPromiseHandler.revealR env
            (builtPromise env (cachedFee env fee0) er cid ct url)).1
          er.providerID (hexToAddress er.em.hermesID)).1 = none := by
  constructor
  · intro h
    rcases hgen : env.generateProviderChannelID er.providerID.address
        (hexToAddress er.em.hermesID).hex with e | cid
    · exfalso
      revert h
      simp [HermesPromiseHandler.requestPromise, hgen]
    rcases henc : env.encrypt (idToCommonAddress er.providerID)
        (jsonMarshalRRecovery
          { R := hexEncodeString er.r, agreementID := er.em.agreementID }) with e | ct
    · exfalso
      revert h
      simp [HermesPromiseHandler.requestPromise, hgen, henc]
    rcases hurl : env.getHermesURL (hexToAddress er.em.hermesID) with e | url
    · exfalso
      revert h
      simp [HermesPromiseHandler.requestPromise,
        HermesPromiseHandler.getHermesCaller, hgen, henc, hurl]
    refine ⟨cid, ct, url, rfl, rfl, rfl, ?_⟩
    rcases hh1 : (HermesPromiseHandler.handleHermesError env
        ((env.hermesCallerFactory url).requestPromise
          (builtRequest (cachedFee env fee0) er ct)).2
        er.providerID (hexToAddress er.em.hermesID)).1 with _ | e
    swap
    · exfalso
      revert h
      simp only [builtRequest, cachedFee] at hh1
      simp [HermesPromiseHandler.requestPromise,
        HermesPromiseHandler.getHermesCaller, hgen, henc, hurl, hh1]
    refine ⟨rfl, ?_⟩
    simp only [builtRequest, cachedFee] at hh1
    rcases hs : env.storeResult
        (builtPromise env (cachedFee env fee0) er cid ct url) with _ | e
    · refine ⟨Or.inl rfl, ?_⟩
      rcases hh2 : (HermesPromiseHandler.handleHermesError env
          (HermesPromiseHandler.revealR env
            (builtPromise env (cachedFee env fee0) er cid ct url)).1
          er.providerID (hexToAddress er.em.hermesID)).1 with _ | e2
      · rfl
      · exfalso
        revert h
        simp only [builtPromise, builtRequest, cachedFee] at hs hh2
        simp [HermesPromiseHandler.requestPromise,
          HermesPromiseHandler.getHermesCaller, hgen, henc, hurl, hh1, hs, hh2]
    · by_cases he : errIs e .attemptToOverwrite
      · refine ⟨Or.inr ⟨e, rfl, he⟩, ?_⟩
        rcases hh2 : (HermesPromiseHandler.handleHermesError env
            (HermesPromiseHandler.revealR env
              (builtPromise env (cachedFee env fee0) er cid ct url)).1
            er.providerID (hexToAddress er.em.hermesID)).1 with _ | e2
        · rfl
        · exfalso
          revert h
          simp only [builtPromise, builtRequest, cachedFee] at hs hh2
          simp [HermesPromiseHandler.requestPromise,
            HermesPromiseHandler.getHermesCaller, hgen, henc, hurl, hh1, hs, he, hh2]
      · exfalso
        revert h
        simp only [builtPromise, builtRequest, cachedFee] at hs
        simp [HermesPromiseHandler.requestPromise,
          HermesPromiseHandler.getHermesCaller, hgen, henc, hurl, hh1, hs, he]
  · rintro ⟨cid, ct, url, hgen, henc, hurl, hh1, hstore, hh2⟩
    simp only [builtPromise, builtRequest, cachedFee] at hh1 hstore hh2
    rcases hstore with hs | ⟨e, hs, he⟩
    · simp [HermesPromiseHandler.requestPromise,
        HermesPromiseHandler.getHermesCaller, hgen, henc, hurl, hh1, hs, hh2]
    · simp [HermesPromiseHandler.requestPromise,
        HermesPromiseHandler.getHermesCaller, hgen, henc, hurl, hh1, hs, he, hh2]

/-- Witness for C2: with all oracles succeeding, the concrete request's
error channel closes with no prior value. -/
theorem C2_witness :
    (HermesPromiseHandler.requestPromise exEnv exFee exER).2.1 = none :=
  (C2_error_channel_success_iff exEnv exFee exER).mpr
    ⟨String.append "prov" "h",
     jsonMarshalRRecovery
       { R := hexEncodeString exER.r, agreementID := exER.em.agreementID },
     "url", rfl, rfl, rfl, rfl, Or.inl rfl, rfl⟩

/-! ## C4 -/

/-- Characters of a hex-encoded string are ASCII and are not the JSON
double quote. -/
theorem hexEncodeString_ascii (bs : List Byte) :
    ∀ c ∈ (hexEncodeString bs).data, c.toNat < 256 ∧ c.toNat ≠ 34 := by
  intro c hc
  exact hexEncodeList_ascii (by simpa [hexEncodeString] using hc)

/-- C4: round-trip of the recovery payload. `requestPromise` sends the
hermes a request whose `RRecoveryData` is the hex of the encryption of
the canonical JSON of `{R: hex(r), AgreementID: em.AgreementID}`; if a
structured `ErrNeedsRRecovery` later carries exactly that payload and
`Decrypt` inverts `Encrypt` on it, then `recoverR`'s decode, decrypt and
unmarshal chain recovers exactly those values, calls `RevealR` once with
them, and succeeds exactly when that call does. -/
theorem C4_recovery_roundtrip (env : HermesEnv) (fee0 : FeesResponse)
    (er : EnqueuedRequest) (cid : String) (ct : List Byte) (url : String)
    (hvalid : fee0.valid = true)
    (hgen : env.generateProviderChannelID er.providerID.address
      (hexToAddress er.em.hermesID).hex = .ok cid)
    (henc : env.encrypt (idToCommonAddress er.providerID)
      (jsonMarshalRRecovery
        { R := hexEncodeString er.r, agreementID := er.em.agreementID }) = .ok ct)
    (hdec : env.decrypt (idToCommonAddress er.providerID) ct =
      .ok (jsonMarshalRRecovery
        { R := hexEncodeString er.r, agreementID := er.em.agreementID }))
    (hurl : env.getHermesURL (hexToAddress er.em.hermesID) = .ok url) :
    HEv.requestPromiseCall (builtRequest fee0 er ct) ∈
      (HermesPromiseHandler.requestPromise env fee0 er).2.2 ∧
    (HermesPromiseHandler.recoverR env
      { cause := some .needsRRecovery,
        data := (builtRequest fee0 er ct).rRecoveryData,
        message := "needs recovery" }
      er.providerID (hexToAddress er.em.hermesID)).2 =
      [.getHermesURLCall (hexToAddress er.em.hermesID),
       .revealRCall (hexEncodeString er.r) er.providerID.address er.em.agreementID] ∧
    (HermesPromiseHandler.recoverR env
      { cause := some .needsRRecovery,
        data := (builtRequest fee0 er ct).rRecoveryData,
        message := "needs recovery" }
      er.providerID (hexToAddress er.em.hermesID)).1 =
      ((env.hermesCallerFactory url).revealR (hexEncodeString er.r)
        er.providerID.address er.em.agreementID).map
        (Err.wrap "could not reveal R") := by
  have hjson : jsonUnmarshalRRecovery (jsonMarshalRRecovery
      { R := hexEncodeString er.r, agreementID := er.em.agreementID }) =
      some { R := hexEncodeString er.r, agreementID := er.em.agreementID } :=
    jsonUnmarshalRRecovery_marshal _ (hexEncodeString_ascii er.r)
  have hhex : hexDecodeString (hexEncodeString ct) = some ct :=
    hexDecodeString_hexEncodeString ct
  refine ⟨?_, ?_, ?_⟩
  · simp only [HermesPromiseHandler.requestPromise,
      HermesPromiseHandler.getHermesCaller, hvalid, hgen, henc, hurl, builtRequest,
      if_true]
    split <;> (try split) <;> (try split) <;> (try split) <;> simp
  · rcases hrev : (env.hermesCallerFactory url).revealR (hexEncodeString er.r)
        er.providerID.address er.em.agreementID with _ | e <;>
      simp [HermesPromiseHandler.recoverR, HermesPromiseHandler.getHermesCaller,
        builtRequest, hhex, hdec, hjson, hurl, hrev]
  · rcases hrev : (env.hermesCallerFactory url).revealR (hexEncodeString er.r)
        er.providerID.address er.em.agreementID with _ | e <;>
      simp [HermesPromiseHandler.recoverR, HermesPromiseHandler.getHermesCaller,
        builtRequest, hhex, hdec, hjson, hurl, hrev]

/-- Witness for C4: the concrete recovery call reveals exactly the hex of
the original secret and the original agreement id. -/
theorem C4_witness :
    (HermesPromiseHandler.recoverR exEnv
      { cause := some .needsRRecovery,
        data := (builtRequest exFee exER (jsonMarshalRRecovery
          { R := hexEncodeString exER.r,
            agreementID := exER.em.agreementID })).rRecoveryData,
        message := "needs recovery" }
      exER.providerID (hexToAddress exER.em.hermesID)).2 =
      [.getHermesURLCall (hexToAddress exER.em.hermesID),
       .revealRCall (hexEncodeString exER.r) exER.providerID.address
         exER.em.agreementID] :=
  (C4_recovery_roundtrip exEnv exFee exER (String.append "prov" "h")
    (jsonMarshalRRecovery
      { R := hexEncodeString exER.r, agreementID := exER.em.agreementID })
    "url" rfl rfl rfl rfl rfl).2.1

/-! ## C8 -/

/-- A window of `maxErr` consecutive failing sends starting at tick `n`,
completing before any `done` observation. -/
def failWindow (maxErr : Nat) (ticks : List SessionManager.Tick) (n : Nat) : Prop :=
  n + maxErr ≤ ticks.length ∧
  (∀ t ∈ ticks.take (n + maxErr), t ≠ .done) ∧
  (∀ t ∈ (ticks.drop n).take maxErr, ∃ e, t = .send (some e))

/-- The keep-alive loop leaves the manager state untouched and emits only
pings and the channel close. -/
theorem keepAliveRun_state (maxErr : Nat) (sid : String) :
    ∀ (ticks : List SessionManager.Tick) (c : Nat) (st : SMState),
    (SessionManager.keepAliveRun maxErr sid c st ticks).2.1 = st ∧
    ∀ ev ∈ (SessionManager.keepAliveRun maxErr sid c st ticks).2.2,
      ev = SMEv.sendPing sid ∨ ev = SMEv.channelClose := by
  intro ticks
  induction ticks with
  | nil =>
    intro c st
    exact ⟨rfl, by simp [SessionManager.keepAliveRun]⟩
  | cons t rest ih =>
    intro c st
    cases t with
    | done => exact ⟨rfl, by simp [SessionManager.keepAliveRun]⟩
    | send r =>
      cases r with
      | some e =>
        by_cases h : c + 1 = maxErr
        · refine ⟨by simp [SessionManager.keepAliveRun, h], ?_⟩
          intro ev hev
          simp [SessionManager.keepAliveRun, h] at hev
          rcases hev with rfl | rfl
          · exact Or.inl rfl
          · exact Or.inr rfl
        · refine ⟨by simp [SessionManager.keepAliveRun, h, (ih (c + 1) st).1], ?_⟩
          intro ev hev
          simp only [SessionManager.keepAliveRun, h, if_false, List.mem_cons] at hev
          rcases hev with rfl | hev
          · exact Or.inl rfl
          · exact (ih (c + 1) st).2 ev hev
      | none =>
        refine ⟨by simp [SessionManager.keepAliveRun, (ih 0 st).1], ?_⟩
        intro ev hev
        simp only [SessionManager.keepAliveRun, List.mem_cons] at hev
        rcases hev with rfl | hev
        · exact Or.inl rfl
        · exact (ih 0 st).2 ev hev

/-- A prefix of failing sends long enough to push the counter from `c` to
`maxErr` forces the channel close. -/
theorem keepAliveRun_close_of_prefix (maxErr : Nat) (sid : String) (st : SMState) :
    ∀ (ticks : List SessionManager.Tick) (c k : Nat), c < maxErr → maxErr ≤ c + k →
    k ≤ ticks.length → (∀ t ∈ ticks.take k, ∃ e, t = .send (some e)) →
    (SessionManager.keepAliveRun maxErr sid c st ticks).1 = .closedChannel := by
  intro ticks
  induction ticks with
  | nil =>
    intro c k hc hk hlen _
    simp only [List.length_nil, Nat.le_zero] at hlen
    omega
  | cons t rest ih =>
    intro c k hc hk hlen hall
    have hkpos : 1 ≤ k := by omega
    rcases k with _ | k2
    · omega
    · have ht : ∃ e, t = SessionManager.Tick.send (some e) := by
        apply hall t
        rw [List.take_succ_cons]
        exact List.mem_cons_self _ _
      rcases ht with ⟨e, rfl⟩
      by_cases h : c + 1 = maxErr
      · simp [SessionManager.keepAliveRun, h]
      · have hrec : (SessionManager.keepAliveRun maxErr sid (c + 1) st rest).1 =
            .closedChannel := by
          apply ih (c + 1) k2 (by omega) (by omega)
            (by simp only [List.length_cons] at hlen; omega)
          intro t' ht'
          apply hall t'
          rw [List.take_succ_cons]
          exact List.mem_cons_of_mem _ ht'
        simp [SessionManager.keepAliveRun, h, hrec]

/-- A window one tick later in the tail lifts along a send tick. -/
theorem failWindow_cons {maxErr : Nat} {rest : List SessionManager.Tick} {n : Nat}
    (r : Option Err) (hw : failWindow maxErr rest n) :
    failWindow maxErr (.send r :: rest) (n + 1) := by
  rcases hw with ⟨hlen, hnd, hfail⟩
  refine ⟨by simp only [List.length_cons]; omega, ?_, ?_⟩
  · intro t ht
    have hshape : (SessionManager.Tick.send r :: rest).take (n + 1 + maxErr) =
        .send r :: rest.take (n + maxErr) := by
      have heq : n + 1 + maxErr = (n + maxErr) + 1 := by omega
      rw [heq, List.take_succ_cons]
    rw [hshape] at ht
    rcases List.mem_cons.mp ht with rfl | ht
    · simp
    · exact hnd t ht
  · intro t ht
    rw [List.drop_succ_cons] at ht
    exact hfail t ht

/-- A complete window of failing sends before any `done` forces the close,
whatever the current counter value. -/
theorem keepAliveRun_close_of_window (maxErr : Nat) (sid : String) (st : SMState) :
    ∀ (n : Nat) (ticks : List SessionManager.Tick) (c : Nat), c < maxErr →
    failWindow maxErr ticks n →
    (SessionManager.keepAliveRun maxErr sid c st ticks).1 = .closedChannel := by
  intro n
  induction n with
  | zero =>
    intro ticks c hc hw
    rcases hw with ⟨hlen, _, hfail⟩
    exact keepAliveRun_close_of_prefix maxErr sid st ticks c maxErr hc (by omega)
      (by simpa using hlen) (by simpa using hfail)
  | succ n ih =>
    intro ticks c hc hw
    rcases hw with ⟨hlen, hnd, hfail⟩
    rcases ticks with _ | ⟨t, rest⟩
    · simp only [List.length_nil] at hlen
      omega
    · have htne : t ≠ SessionManager.Tick.done := by
        apply hnd t
        have heq : n + 1 + maxErr = (n + maxErr) + 1 := by omega
        rw [heq, List.take_succ_cons]
        exact List.mem_cons_self _ _
      cases t with
      | done => exact absurd rfl htne
      | send r =>
        have hw2 : failWindow maxErr rest n := by
          refine ⟨by simp only [List.length_cons] at hlen; omega, ?_, ?_⟩
          · intro t' ht'
            apply hnd t'
            have heq : n + 1 + maxErr = (n + maxErr) + 1 := by omega
            rw [heq, List.take_succ_cons]
            exact List.mem_cons_of_mem _ ht'
          · intro t' ht'
            apply hfail t'
            rw [List.drop_succ_cons]
            exact ht'
        cases r with
        | some e =>
          by_cases h : c + 1 = maxErr
          · simp [SessionManager.keepAliveRun, h]
          · have hrec := ih rest (c + 1) (by omega) hw2
            simp [SessionManager.keepAliveRun, h, hrec]
        | none =>
          have hrec := ih rest 0 (by omega) hw2
          simp [SessionManager.keepAliveRun, hrec]

/-- If the loop closed the channel, the ticks contain a failing window, or
a failing prefix long enough to finish the current streak. -/
theorem keepAliveRun_closed_forward (maxErr : Nat) (sid : String) (st : SMState) :
    ∀ (ticks : List SessionManager.Tick) (c : Nat), c < maxErr →
    (SessionManager.keepAliveRun maxErr sid c st ticks).1 = .closedChannel →
    (∃ n, failWindow maxErr ticks n) ∨
      (maxErr - c ≤ ticks.length ∧
        ∀ t ∈ ticks.take (maxErr - c), ∃ e, t = .send (some e)) := by
  intro ticks
  induction ticks with
  | nil =>
    intro c hc h
    simp [SessionManager.keepAliveRun] at h
  | cons t rest ih =>
    intro c hc h
    cases t with
    | done => simp [SessionManager.keepAliveRun] at h
    | send r =>
      cases r with
      | some e =>
        by_cases hme : c + 1 = maxErr
        · right
          have h1 : maxErr - c = 1 := by omega
          rw [h1]
          refine ⟨by simp, ?_⟩
          intro t' ht'
          rw [List.take_succ_cons, List.take_zero] at ht'
          rcases List.mem_cons.mp ht' with rfl | ht'
          · exact ⟨e, rfl⟩
          · cases ht'
        · have h2 : (SessionManager.keepAliveRun maxErr sid (c + 1) st rest).1 =
              .closedChannel := by
            revert h
            simp [SessionManager.keepAliveRun, hme]
          rcases ih (c + 1) (by omega) h2 with ⟨n, hw⟩ | ⟨hlen, hall⟩
          · exact Or.inl ⟨n + 1, failWindow_cons _ hw⟩
          · right
            have hmc : maxErr - c = (maxErr - (c + 1)) + 1 := by omega
            rw [hmc]
            refine ⟨by simp only [List.length_cons]; omega, ?_⟩
            intro t' ht'
            rw [List.take_succ_cons] at ht'
            rcases List.mem_cons.mp ht' with rfl | ht'
            · exact ⟨e, rfl⟩
            · exact hall t' ht'
      | none =>
        have h2 : (SessionManager.keepAliveRun maxErr sid 0 st rest).1 =
            .closedChannel := by
          revert h
          simp [SessionManager.keepAliveRun]
        rcases ih 0 (by omega) h2 with ⟨n, hw⟩ | ⟨hlen, hall⟩
        · exact Or.inl ⟨n + 1, failWindow_cons _ hw⟩
        · left
          refine ⟨1, by simp only [List.length_cons]; omega, ?_, ?_⟩
          · intro t' ht'
            have heq : 1 + maxErr = maxErr + 1 := by omega
            rw [heq, List.take_succ_cons] at ht'
            rcases List.mem_cons.mp ht' with rfl | ht'
            · simp
            · rcases hall t' (by simpa using ht') with ⟨e2, rfl⟩
              simp
          · intro t' ht'
            rw [List.drop_succ_cons, List.drop_zero] at ht'
            exact hall t' (by simpa using ht')

/-- C8: under the given `MaxSendErrCount` (at least one), the keep-alive
loop leaves the session untouched — the state, including the store and
the open `done` signals, is returned unchanged, and the trace holds only
the handler registration, ping sends and the channel close — and it
closes the p2p channel exactly when some run of `MaxSendErrCount`
consecutive failing sends completes before `done` fires: each failure
increments the counter, each success resets it, and reaching the bound
closes the channel and exits. -/
theorem C8_keepalive_counter (maxErr : Nat) (sid : String) (st : SMState)
    (ticks : List SessionManager.Tick) (hmax : 1 ≤ maxErr) :
    (SessionManager.keepAliveLoop maxErr true sid st ticks).2.1 = st ∧
    (∀ ev ∈ (SessionManager.keepAliveLoop maxErr true sid st ticks).2.2,
      ev = SMEv.registerKeepAliveHandler ∨ ev = SMEv.sendPing sid ∨
        ev = SMEv.channelClose) ∧
    ((SessionManager.keepAliveLoop maxErr true sid st ticks).1 = .closedChannel ↔
      ∃ n, failWindow maxErr ticks n) := by
  have hks := keepAliveRun_state maxErr sid ticks 0 st
  refine ⟨?_, ?_, ?_⟩
  · simp [SessionManager.keepAliveLoop, hks.1]
  · intro ev hev
    simp only [SessionManager.keepAliveLoop, if_true, List.mem_cons] at hev
    rcases hev with rfl | hev
    · exact Or.inl rfl
    · rcases hks.2 ev hev with rfl | rfl
      · exact Or.inr (Or.inl rfl)
      · exact Or.inr (Or.inr rfl)
  · constructor
    · intro h
      have h2 : (SessionManager.keepAliveRun maxErr sid 0 st ticks).1 =
          .closedChannel := by
        simpa [SessionManager.keepAliveLoop] using h
      rcases keepAliveRun_closed_forward maxErr sid st ticks 0 (by omega) h2 with
        hout | ⟨hlen, hall⟩
      · exact hout
      · refine ⟨0, by simpa using hlen, ?_, ?_⟩
        · intro t ht
          simp only [Nat.zero_add] at ht
          rcases hall t (by simpa using ht) with ⟨e, rfl⟩
          simp
        · intro t ht
          simp only [List.drop_zero] at ht
          exact hall t (by simpa using ht)
    · rintro ⟨n, hw⟩
      have := keepAliveRun_close_of_window maxErr sid st n ticks 0 (by omega) hw
      simpa [SessionManager.keepAliveLoop] using this

/-- Witness for C8: with a bound of two, two consecutive failing sends
close the channel. -/
theorem C8_witness :
    (SessionManager.keepAliveLoop 2 true "s1" { store := [], closedDone := [] }
      [.send (some (.msg "x")), .send (some (.msg "x"))]).1 = .closedChannel := by
  have h := C8_keepalive_counter 2 "s1" { store := [], closedDone := [] }
    [.send (some (.msg "x")), .send (some (.msg "x"))] (by omega)
  apply h.2.2.mpr
  refine ⟨0, by simp, ?_, ?_⟩
  · intro t ht
    simp at ht
    subst ht
    simp
  · intro t ht
    simp at ht
    subst ht
    exact ⟨.msg "x", rfl⟩
